import Mathlib

/-!
Shallow embedding of the voice-food-logger repository
(src/storage.py, src/processing.py, src/transcription.py, src/app.py).

Python values that flow through the program (JSON-like data, the items
lists, parsed payloads) are modelled by the inductive type `PyVal`.
Filesystem state for the per-day journal files is modelled by
`FileState` (absent / unreadable / parsed JSON content); the storage
functions are direct transcriptions of `FoodStorage` in src/storage.py.
-/

/-- Universe of Python values appearing in the program: strings, ints,
booleans, None, lists and (string-keyed) dicts. -/
inductive PyVal where
  | str (s : String)
  | int (n : Int)
  | bool (b : Bool)
  | none
  | list (xs : List PyVal)
  | dict (kvs : List (String × PyVal))

/-- First-binding lookup in a dict association list (Python dicts have
unique keys, so first-binding lookup is faithful). -/
def lookupKey : List (String × PyVal) → String → Option PyVal
  | [], _ => Option.none
  | (k, v) :: rest, key => if k = key then some v else lookupKey rest key

/-- Python truthiness (`bool(x)`) for the modelled values. -/
def pyTruthy : PyVal → Bool
  | .str s => !(s == "")
  | .int n => !(n == 0)
  | .bool b => b
  | .none => false
  | .list xs => !xs.isEmpty
  | .dict kvs => !kvs.isEmpty

/-- `isinstance(x, list)`. -/
def PyVal.isPyList : PyVal → Bool
  | .list _ => true
  | _ => false

/-- `isinstance(x, dict)`. -/
def PyVal.isPyDict : PyVal → Bool
  | .dict _ => true
  | _ => false

/-- `isinstance(x, str)`. -/
def PyVal.isPyStr : PyVal → Bool
  | .str _ => true
  | _ => false

/-!  Storage (src/storage.py, class FoodStorage).

A day's file is keyed by the `YYYY-MM-DD` date string produced by
`strftime` in `_get_daily_log_path`.  `FileState.corrupt` models a file
whose `json.load` raises `JSONDecodeError`/`IOError`;
`FileState.stored v` models a readable file whose parsed content is `v`.
-/

/-- On-disk state of one daily log file. -/
inductive FileState where
  | absent
  | corrupt
  | stored (v : PyVal)

/-- The logs directory: date string to file state. -/
def FS : Type := String → FileState

/-- A timestamp, carrying its `strftime` date component and its
`isoformat()` rendering. -/
structure Timestamp where
  dateStr : String
  iso : String
deriving DecidableEq

/-- FoodStorage._get_daily_log_path: `logs/logs_<YYYY-MM-DD>.json`. -/
def dailyLogPath (dateStr : String) : String :=
  "logs/logs_" ++ dateStr ++ ".json"

/-- FoodStorage._load_daily_log: missing file gives `[]`; a dict (legacy
single entry) is wrapped in a one-element list; a list is returned as is;
any other JSON value gives `[]` with a warning; a parse/IO error gives
`[]` with a logged error. -/
def loadDailyLog (fs : FS) (dateStr : String) : List PyVal :=
  match fs dateStr with
  | .absent => []
  | .corrupt => []
  | .stored v =>
    match v with
    | .dict kvs => [.dict kvs]
    | .list xs => xs
    | _ => []

/-- FoodStorage._save_daily_log: `json.dump` of the entries list, i.e. the
file now stores the JSON array of entries. -/
def saveDailyLog (fs : FS) (dateStr : String) (entries : List PyVal) : FS :=
  fun d => if d = dateStr then .stored (.list entries) else fs d

/-- The item-structure check inside store_food_entry: a dict having both
the key food and the key quantity. -/
def validItem : PyVal → Bool
  | .dict kvs => (lookupKey kvs "food").isSome && (lookupKey kvs "quantity").isSome
  | _ => false

/-- The entry object built by store_food_entry:
`{"timestamp": timestamp.isoformat(), "items": food_items}`. -/
def mkEntry (t : Timestamp) (items : List PyVal) : PyVal :=
  .dict [("timestamp", .str t.iso), ("items", .list items)]

/-- FoodStorage.store_food_entry: validates that food_items is a truthy
list of dicts each holding the food and quantity keys, then loads the
day's entries, appends the new entry and saves.  Returns the success flag
and the resulting directory state (unchanged on validation failure). -/
def store_food_entry (fs : FS) (food_items : PyVal) (t : Timestamp) :
    Bool × FS :=
  if ¬ pyTruthy food_items ∨ ¬ food_items.isPyList then (false, fs)
  else
    match food_items with
    | .list items =>
      if items.all validItem then
        let entry := mkEntry t items
        let existing := loadDailyLog fs t.dateStr
        (true, saveDailyLog fs t.dateStr (existing ++ [entry]))
      else (false, fs)
    | _ => (false, fs)

/-- FoodStorage.get_daily_entries. -/
def get_daily_entries (fs : FS) (dateStr : String) : List PyVal :=
  loadDailyLog fs dateStr

/-- Repeated store_food_entry calls, threading the directory state. -/
def storeMany (fs : FS) : List (List PyVal × Timestamp) → FS
  | [] => fs
  | (items, t) :: rest =>
    storeMany (store_food_entry fs (.list items) t).2 rest

/-- The empty logs directory. -/
def fsEmpty : FS := fun _ => .absent

/-!  File-operation trace of FoodStorage._save_daily_log.

The source is
`with open(log_path, 'w') as file: json.dump(entries, file, indent=2)`,
i.e. a truncating open of the final path, a write of the serialized
entries, and a close.  `applyOp` gives the observable state of each path
during the trace: a truncating open leaves the file partially written
(`corrupt` to a reader) until the dump completes. -/

/-- One filesystem operation performed while saving. -/
inductive FileOp where
  | openWrite (path : String)
  | writeAll (path : String) (data : PyVal)
  | closeFile (path : String)
  | renameFile (src dst : String)

/-- Whether an operation is a rename. -/
def FileOp.isRenameOp : FileOp → Bool
  | .renameFile _ _ => true
  | _ => false

/-- The operations FoodStorage._save_daily_log performs, in order. -/
def saveDailyLogOps (entries : List PyVal) (dateStr : String) : List FileOp :=
  [.openWrite (dailyLogPath dateStr),
   .writeAll (dailyLogPath dateStr) (.list entries),
   .closeFile (dailyLogPath dateStr)]

/-- Path-indexed file states, for observing the trace midway. -/
def PathState : Type := String → FileState

/-- Effect of one operation on the path-indexed state.  A truncating
open destroys the previous content; until the write lands, a reader of
that path sees an incomplete file. -/
def applyOp (st : PathState) : FileOp → PathState
  | .openWrite p => fun q => if q = p then .corrupt else st q
  | .writeAll p v => fun q => if q = p then .stored v else st q
  | .closeFile _ => st
  | .renameFile src dst => fun q =>
      if q = dst then st src else if q = src then .absent else st q

/-- Effect of a whole operation list. -/
def applyOps (st : PathState) : List FileOp → PathState
  | [] => st
  | op :: rest => applyOps (applyOp st op) rest

/-- The atomic-save discipline the spec asks for: the final path is never
opened for writing directly, and the content arrives by renaming a
temporary file onto it. -/
def atomicSaveClaim (entries : List PyVal) (dateStr : String) : Prop :=
  FileOp.openWrite (dailyLogPath dateStr) ∉ saveDailyLogOps entries dateStr ∧
  ∃ tmp, tmp ≠ dailyLogPath dateStr ∧
    FileOp.renameFile tmp (dailyLogPath dateStr) ∈ saveDailyLogOps entries dateStr

example :
    (store_food_entry fsEmpty
      (.list [.dict [("food", .str "egg"), ("quantity", .str "2")]])
      ⟨"2024-01-15", "2024-01-15T12:00:00"⟩).1 = true := rfl

example :
    (store_food_entry fsEmpty (.list []) ⟨"2024-01-15", "x"⟩).1 = false := rfl

example :
    loadDailyLog
      (store_food_entry fsEmpty
        (.list [.dict [("food", .str "egg"), ("quantity", .str "2")]])
        ⟨"2024-01-15", "2024-01-15T12:00:00"⟩).2 "2024-01-15" =
    [mkEntry ⟨"2024-01-15", "2024-01-15T12:00:00"⟩
      [.dict [("food", .str "egg"), ("quantity", .str "2")]]] := rfl

/-!  String helpers mirroring the Python built-ins used by
FoodProcessor._extract_json: str.find, str.rfind, slicing and
str.replace, all over character lists. -/

/-- The left brace character, written by code point. -/
def lbrace : Char := Char.ofNat 123

/-- The right brace character, written by code point. -/
def rbrace : Char := Char.ofNat 125

/-- All indices i with pat occurring in hay at position i. -/
def subIdxs (hay pat : List Char) : List Nat :=
  (List.range (hay.length + 1)).filter fun i => pat.isPrefixOf (hay.drop i)

/-- Python str.find: lowest index of pat in hay, absent when none. -/
def pyFind (hay pat : List Char) : Option Nat :=
  (subIdxs hay pat).head?

/-- Python str.rfind: highest index of pat in hay, absent when none. -/
def pyRFind (hay pat : List Char) : Option Nat :=
  (subIdxs hay pat).getLast?

/-- Python slicing text[start:stop]. -/
def pySlice (hay : List Char) (start stop : Nat) : List Char :=
  (hay.drop start).take (stop - start)

/-- Fuel-driven worker for pyReplace; with fuel at least the length of
the text it scans the whole text (the fuel only bounds recursion depth,
each step consumes at least one character). -/
def pyReplaceFuel (pat rep : List Char) : Nat → List Char → List Char
  | 0, l => l
  | _ + 1, [] => []
  | fuel + 1, c :: rest =>
    if pat ≠ [] ∧ pat.isPrefixOf (c :: rest) then
      rep ++ pyReplaceFuel pat rep fuel ((c :: rest).drop pat.length)
    else
      c :: pyReplaceFuel pat rep fuel rest

/-- Python str.replace: replace every occurrence of pat by rep, left to
right, non-overlapping. -/
def pyReplace (pat rep : List Char) (l : List Char) : List Char :=
  pyReplaceFuel pat rep l.length l

/-- Python str.strip with no argument: drop leading and trailing
whitespace. -/
def pyStrip (s : String) : String :=
  String.mk
    (((s.data.dropWhile Char.isWhitespace).reverse.dropWhile
        Char.isWhitespace).reverse)

example : pyFind "abcbc".data "bc".data = some 1 := by decide
example : pyRFind "abcbc".data "bc".data = some 3 := by decide
example : pyFind "abc".data "zz".data = Option.none := by decide
example :
    pyReplace "ab".data "X".data "zababz".data = "zXXz".data := by decide

/-!  A model of json.loads, sufficient for the JSON shapes the program
handles: objects, arrays, strings with the common escapes, integers,
true/false/null, with surrounding whitespace.  (Floats and \u escapes
are not modelled; none of the verified behaviors involve them.)  The
parser is fuel-driven so that it is structurally recursive and reduces
inside the kernel; jsonLoads supplies ample fuel. -/

/-- Skip JSON whitespace. -/
def skipWs : List Char → List Char
  | c :: rest =>
    if c = ' ' ∨ c = '\n' ∨ c = '\t' ∨ c = '\r' then skipWs rest
    else c :: rest
  | [] => []

/-- Parse the body of a JSON string after the opening quote, handling
the common escapes; gives the string and the remaining input. -/
def parseJString : List Char → Option (List Char × List Char)
  | [] => Option.none
  | c :: rest =>
    if c = '"' then some ([], rest)
    else if c = '\\' then
      match rest with
      | [] => Option.none
      | e :: rest2 =>
        let dec : Option Char :=
          if e = '"' then some '"'
          else if e = '\\' then some '\\'
          else if e = '/' then some '/'
          else if e = 'n' then some '\n'
          else if e = 't' then some '\t'
          else if e = 'r' then some '\r'
          else Option.none
        match dec with
        | some d =>
          match parseJString rest2 with
          | some (s, r) => some (d :: s, r)
          | Option.none => Option.none
        | Option.none => Option.none
    else
      match parseJString rest with
      | some (s, r) => some (c :: s, r)
      | Option.none => Option.none

/-- Parse a JSON integer (sign and digits); fails on a following '.' or
exponent since floats are outside the model. -/
def parseJInt (s : List Char) : Option (Int × List Char) :=
  let (sign, s1) : Bool × List Char :=
    match s with
    | c :: rest => if c = '-' then (true, rest) else (false, s)
    | [] => (false, s)
  let digits := s1.takeWhile Char.isDigit
  let rest := s1.dropWhile Char.isDigit
  if digits.isEmpty then Option.none
  else
    match rest with
    | c :: _ => if c = '.' ∨ c = 'e' ∨ c = 'E' then Option.none else
        let n : Nat := digits.foldl (fun acc c => acc * 10 + (c.toNat - 48)) 0
        some (if sign then -(n : Int) else (n : Int), rest)
    | [] =>
        let n : Nat := digits.foldl (fun acc c => acc * 10 + (c.toNat - 48)) 0
        some (if sign then -(n : Int) else (n : Int), rest)

mutual

/-- Parse one JSON value (fuel-driven). -/
def parseJVal : Nat → List Char → Option (PyVal × List Char)
  | 0, _ => Option.none
  | fuel + 1, s =>
    match skipWs s with
    | [] => Option.none
    | c :: rest =>
      if c = '"' then
        match parseJString rest with
        | some (cs, r) => some (.str (String.mk cs), r)
        | Option.none => Option.none
      else if c = lbrace then parseJObjBody fuel rest
      else if c = '[' then parseJArrBody fuel rest
      else if c = 't' then
        if "rue".data.isPrefixOf rest then some (.bool true, rest.drop 3)
        else Option.none
      else if c = 'f' then
        if "alse".data.isPrefixOf rest then some (.bool false, rest.drop 4)
        else Option.none
      else if c = 'n' then
        if "ull".data.isPrefixOf rest then some (.none, rest.drop 3)
        else Option.none
      else if c = '-' ∨ c.isDigit then
        match parseJInt (c :: rest) with
        | some (n, r) => some (.int n, r)
        | Option.none => Option.none
      else Option.none

/-- Parse an object body after the opening brace. -/
def parseJObjBody : Nat → List Char → Option (PyVal × List Char)
  | 0, _ => Option.none
  | fuel + 1, s =>
    match skipWs s with
    | c :: rest =>
      if c = rbrace then some (.dict [], rest)
      else
        match parseJMembers fuel (c :: rest) with
        | some (kvs, r) => some (.dict kvs, r)
        | Option.none => Option.none
    | [] => Option.none

/-- Parse one or more key-value members, consuming the closing brace. -/
def parseJMembers : Nat → List Char → Option (List (String × PyVal) × List Char)
  | 0, _ => Option.none
  | fuel + 1, s =>
    match skipWs s with
    | c :: rest =>
      if c = '"' then
        match parseJString rest with
        | some (key, r1) =>
          match skipWs r1 with
          | ':' :: r2 =>
            match parseJVal fuel r2 with
            | some (v, r3) =>
              match skipWs r3 with
              | ',' :: r4 =>
                match parseJMembers fuel r4 with
                | some (kvs, r5) => some ((String.mk key, v) :: kvs, r5)
                | Option.none => Option.none
              | c2 :: r4 =>
                if c2 = rbrace then some ([(String.mk key, v)], r4)
                else Option.none
              | [] => Option.none
            | Option.none => Option.none
          | _ => Option.none
        | Option.none => Option.none
      else Option.none
    | [] => Option.none

/-- Parse an array body after the opening bracket. -/
def parseJArrBody : Nat → List Char → Option (PyVal × List Char)
  | 0, _ => Option.none
  | fuel + 1, s =>
    match skipWs s with
    | c :: rest =>
      if c = ']' then some (.list [], rest)
      else
        match parseJElems fuel (c :: rest) with
        | some (xs, r) => some (.list xs, r)
        | Option.none => Option.none
    | [] => Option.none

/-- Parse one or more array elements, consuming the closing bracket. -/
def parseJElems : Nat → List Char → Option (List PyVal × List Char)
  | 0, _ => Option.none
  | fuel + 1, s =>
    match parseJVal fuel s with
    | some (v, r1) =>
      match skipWs r1 with
      | ',' :: r2 =>
        match parseJElems fuel r2 with
        | some (xs, r3) => some (v :: xs, r3)
        | Option.none => Option.none
      | ']' :: r2 => some ([v], r2)
      | _ => Option.none
    | Option.none => Option.none

end

/-- json.loads: parse the whole text as one JSON value; trailing
whitespace only.  Failure models the JSONDecodeError path. -/
def jsonLoads (text : String) : Option PyVal :=
  match parseJVal (2 * text.data.length + 4) text.data with
  | some (v, rest) => if skipWs rest = [] then some v else Option.none
  | Option.none => Option.none

example :
    jsonLoads "\x7b\"a\": [1, true, null, \"b\"]\x7d" =
    some (.dict [("a", .list [.int 1, .bool true, .none, .str "b"])]) := rfl

example : jsonLoads "no json here" = Option.none := rfl
example : jsonLoads "\x7b\"a\": 1\x7d extra" = Option.none := rfl

/-!  FoodProcessor._extract_json (src/processing.py).

The source first tries json.loads on the whole text; on failure it loops
over start markers (a brace, or a json fence opener followed by a brace)
and end markers (a brace, or a brace followed by a fence closer), slices
text[start_idx : end_idx + 1] for the found positions, strips fence
strings with str.replace, and returns the first successful json.loads;
otherwise it gives absence. -/

/-- Start marker 1: a left brace. -/
def startMarker1 : List Char := "\x7b".data

/-- Start marker 2: the json fence opener followed by a left brace. -/
def startMarker2 : List Char := "```json\n\x7b".data

/-- End marker 1: a right brace. -/
def endMarker1 : List Char := "\x7d".data

/-- End marker 2: a right brace followed by a fence closer. -/
def endMarker2 : List Char := "\x7d\n```".data

/-- The fence opener stripped by the first replace. -/
def fenceOpen : List Char := "```json\n".data

/-- The fence closer stripped by the second replace. -/
def fenceClose : List Char := "\n```".data

/-- One end-marker attempt of the inner loop: rfind the end marker,
require it to lie strictly after the start index, slice, strip fences,
and try json.loads. -/
def tryEndMarker (text : List Char) (startIdx : Nat) (em : List Char) :
    Option PyVal :=
  match pyRFind text em with
  | Option.none => Option.none
  | some endIdx =>
    if startIdx < endIdx then
      let jsonStr := pySlice text startIdx (endIdx + 1)
      let jsonStr := pyReplace fenceClose [] (pyReplace fenceOpen [] jsonStr)
      jsonLoads (String.mk jsonStr)
    else Option.none

/-- One start-marker attempt of the outer loop: find the start marker,
then try both end markers in order. -/
def tryStartMarker (text : List Char) (sm : List Char) : Option PyVal :=
  match pyFind text sm with
  | Option.none => Option.none
  | some startIdx =>
    (tryEndMarker text startIdx endMarker1).orElse fun _ =>
      tryEndMarker text startIdx endMarker2

/-- FoodProcessor._extract_json. -/
def extractJson (text : String) : Option PyVal :=
  match jsonLoads text with
  | some v => some v
  | Option.none =>
    ((tryStartMarker text.data startMarker1).orElse fun _ =>
      tryStartMarker text.data startMarker2)

/-- FoodProcessor.validate_parsed_data: data must be a dict holding the
key items whose value is a list, every element a dict holding the keys
food and quantity with str values. -/
def validate_parsed_data : PyVal → Bool
  | .dict kvs =>
    match lookupKey kvs "items" with
    | Option.none => false
    | some itemsVal =>
      match itemsVal with
      | .list items =>
        items.all fun item =>
          match item with
          | .dict ikvs =>
            match lookupKey ikvs "food", lookupKey ikvs "quantity" with
            | some f, some q => f.isPyStr && q.isPyStr
            | _, _ => false
          | _ => false
      | _ => false
  | _ => false

/-!  Retry loops of TranscriptionService.transcribe_audio
(src/transcription.py) and FoodProcessor.parse_food_description
(src/processing.py).

Both loop `for attempt in range(self.max_retries)` with max_retries = 3.
A failed attempt other than the last sleeps self.retry_delay and then
doubles self.retry_delay (an instance attribute).  The transport is a
function from the attempt index to that attempt's observable outcome;
raised covers every exception the except clauses catch.  The model
threads the instance attribute retry_delay explicitly: each call takes
its current value and reports the value it leaves behind, together with
the sleeps performed and the number of attempts made. -/

/-- Outcome of one transcription attempt: an HTTP response with status
and body text, or a raised (and caught) exception. -/
inductive TranscriptAttempt where
  | response (status : Nat) (text : String)
  | raised

/-- Outcome of one extraction attempt: an HTTP response with status and
message content, or a raised (and caught) exception. -/
inductive ExtractAttempt where
  | response (status : Nat) (content : String)
  | raised

/-- What one client call returns and leaves behind: the payload (absence
on failure), the retry_delay attribute after the call, the sleep
durations performed in order, and the number of attempts made. -/
structure CallResult (α : Type) where
  result : Option α
  finalDelay : Nat
  waits : List Nat
  attempts : Nat
deriving DecidableEq

/-- The retry loop of transcribe_audio, recursing on the remaining
attempt count (remaining = max_retries - attempt). -/
def transcribeLoop (transport : Nat → TranscriptAttempt) :
    Nat → Nat → Nat → CallResult String
  | _, 0, delay => ⟨Option.none, delay, [], 0⟩
  | attempt, r + 1, delay =>
    match transport attempt with
    | .response status text =>
      if status = 200 then ⟨some (pyStrip text), delay, [], 1⟩
      else if r = 0 then ⟨Option.none, delay, [], 1⟩
      else
        let rest := transcribeLoop transport (attempt + 1) r (delay * 2)
        ⟨rest.result, rest.finalDelay, delay :: rest.waits, rest.attempts + 1⟩
    | .raised =>
      if r = 0 then ⟨Option.none, delay, [], 1⟩
      else
        let rest := transcribeLoop transport (attempt + 1) r (delay * 2)
        ⟨rest.result, rest.finalDelay, delay :: rest.waits, rest.attempts + 1⟩

/-- TranscriptionService.transcribe_audio: a missing audio file returns
absence before any attempt; otherwise the 3-attempt retry loop runs,
starting from the instance's current retry_delay. -/
def transcribe_audio (fileExists : Bool) (transport : Nat → TranscriptAttempt)
    (delay0 : Nat) : CallResult String :=
  if fileExists then transcribeLoop transport 0 3 delay0
  else ⟨Option.none, delay0, [], 0⟩

/-- The retry loop of parse_food_description: a 200 response whose
content yields extractable JSON returns it; any other outcome (non-200,
raised, or 200 with no extractable JSON) falls through to the retry
path. -/
def parseLoop (transport : Nat → ExtractAttempt) :
    Nat → Nat → Nat → CallResult PyVal
  | _, 0, delay => ⟨Option.none, delay, [], 0⟩
  | attempt, r + 1, delay =>
    let extracted : Option PyVal :=
      match transport attempt with
      | .response status content =>
        if status = 200 then extractJson content else Option.none
      | .raised => Option.none
    match extracted with
    | some d => ⟨some d, delay, [], 1⟩
    | Option.none =>
      if r = 0 then ⟨Option.none, delay, [], 1⟩
      else
        let rest := parseLoop transport (attempt + 1) r (delay * 2)
        ⟨rest.result, rest.finalDelay, delay :: rest.waits, rest.attempts + 1⟩

/-- FoodProcessor.parse_food_description: an empty (or whitespace-only)
description returns absence before any attempt; otherwise the 3-attempt
retry loop runs, starting from the instance's current retry_delay. -/
def parse_food_description (description : String)
    (transport : Nat → ExtractAttempt) (delay0 : Nat) : CallResult PyVal :=
  if pyStrip description = "" then ⟨Option.none, delay0, [], 0⟩
  else parseLoop transport 0 3 delay0

/-!  The upload pipeline of src/app.py (upload_audio), from the point
where the file has been accepted and saved: transcribe, parse, store.
The transcription result and the parser result for that transcript are
inputs; now models datetime.now() at the storage step.

Source checks, in order:
`if not transcription: return error` (transcription failed),
`if not parsed_data or 'items' not in parsed_data: return error`
(parse failed), then `store_food_data(parsed_data['items'])` and
`if not success: return error` (storage failed).  A truthy non-dict
parsed_data makes the `in` test or the subscript raise, which the outer
try/except maps to a generic processing error. -/

/-- Outcome of one upload_audio run past file handling. -/
inductive PipelineOutcome where
  | errTranscribe
  | errParse
  | errStore
  | errRaised
  | done (transcription : String) (items : PyVal)

/-- The parse-and-store tail of upload_audio, given the parser's payload. -/
def uploadAfterParse (transcription : String) (pd : PyVal) (fs : FS)
    (now : Timestamp) : PipelineOutcome × FS :=
  if pyTruthy pd = false then (.errParse, fs)
  else
    match pd with
    | .dict kvs =>
      match lookupKey kvs "items" with
      | Option.none => (.errParse, fs)
      | some items =>
        let res := store_food_entry fs items now
        if res.1 then (.done transcription items, res.2)
        else (.errStore, fs)
    | .list xs =>
        if xs.any fun x => match x with | .str s => s == "items" | _ => false
        then (.errRaised, fs) else (.errParse, fs)
    | .str s =>
        if (pyFind s.data "items".data).isSome then (.errRaised, fs)
        else (.errParse, fs)
    | _ => (.errRaised, fs)

/-- upload_audio from transcription onward: transcription absence or
emptiness fails the run; then parser absence fails the run; then the
parse-and-store tail runs. -/
def upload_audio (transcription : Option String) (parsed : Option PyVal)
    (fs : FS) (now : Timestamp) : PipelineOutcome × FS :=
  match transcription with
  | Option.none => (.errTranscribe, fs)
  | some t =>
    if t = "" then (.errTranscribe, fs)
    else
      match parsed with
      | Option.none => (.errParse, fs)
      | some pd => uploadAfterParse t pd fs now

/-- The plain extraction test string from the spec. -/
def plainJsonInput : String :=
  "\x7b\"items\":[\x7b\"food\":\"egg\",\"quantity\":\"2\"\x7d]\x7d"

/-- The same JSON wrapped in a markdown json fence. -/
def fencedJsonInput : String := "```json\n" ++ plainJsonInput ++ "\n```"

/-- The payload both extraction inputs should produce. -/
def eggPayload : PyVal :=
  .dict [("items", .list [.dict [("food", .str "egg"), ("quantity", .str "2")]])]

example : extractJson plainJsonInput = some eggPayload := rfl
example : extractJson fencedJsonInput = some eggPayload := rfl
example : extractJson "no json here" = Option.none := rfl

/-- A transport that fails twice (HTTP 500) then succeeds. -/
def failTwiceTransport : Nat → TranscriptAttempt := fun n =>
  if n < 2 then .response 500 "server error" else .response 200 "ok"

example : (transcribe_audio true failTwiceTransport 1).waits = [1, 2] := rfl
example : (transcribe_audio true failTwiceTransport 1).finalDelay = 4 := rfl
example : (transcribe_audio true failTwiceTransport 1).result = some "ok" := rfl
example : (transcribe_audio true failTwiceTransport 4).waits = [4, 8] := rfl
example : pyStrip "chicken" ≠ "" := by decide
example : pyStrip "  hi there " = "hi there" := by decide

/-!  Shared fixtures and helper lemmas. -/

/-- A sample timestamp. -/
def tsSample : Timestamp := ⟨"2024-01-15", "2024-01-15T12:00:00"⟩

/-- A sample valid food item. -/
def itemEgg : PyVal := .dict [("food", .str "egg"), ("quantity", .str "2")]

/-- Reading back the file just saved gives the saved entries. -/
theorem loadDailyLog_save (fs : FS) (d : String) (l : List PyVal) :
    loadDailyLog (saveDailyLog fs d l) d = l := by
  simp [loadDailyLog, saveDailyLog]

/-- A non-empty list of structurally valid items passes validation, and
the store appends the new entry to the day's loaded entries. -/
theorem store_food_entry_success_eq (fs : FS) (t : Timestamp)
    (items : List PyVal) (hne : items ≠ [])
    (hval : items.all validItem = true) :
    store_food_entry fs (.list items) t =
      (true,
       saveDailyLog fs t.dateStr
         (loadDailyLog fs t.dateStr ++ [mkEntry t items])) := by
  have htr : pyTruthy (.list items) = true := by
    cases items with
    | nil => exact absurd rfl hne
    | cons a l => simp [pyTruthy]
  simp [store_food_entry, htr, PyVal.isPyList, hval]

/-!  Claim theorems. -/

/-- C4: for every date, reading the daily journal returns the empty list
when no file exists, wraps a single legacy entry object in a one-element
sequence, and returns the empty list without raising when the file
content is syntactically invalid JSON. -/
theorem daily_read_legacy_and_corrupt_cases (fs : FS) (d : String) :
    (fs d = .absent → get_daily_entries fs d = []) ∧
    (∀ kvs, fs d = .stored (.dict kvs) →
      get_daily_entries fs d = [.dict kvs]) ∧
    (fs d = .corrupt → get_daily_entries fs d = []) := by
  refine ⟨fun h => ?_, fun kvs h => ?_, fun h => ?_⟩ <;>
    simp [get_daily_entries, loadDailyLog, h]

/-- A logs directory with one legacy-format (single object) file. -/
def fsLegacy : FS := fun d =>
  if d = "2024-01-15" then .stored (mkEntry tsSample [itemEgg]) else .absent

/-- A logs directory whose file for the sample day is unreadable. -/
def fsCorrupt : FS := fun d =>
  if d = "2024-01-15" then .corrupt else .absent

/-- Witness for C4 at concrete directories: the absent, legacy and
corrupt cases each evaluate as stated. -/
theorem daily_read_legacy_and_corrupt_cases_witness :
    get_daily_entries fsEmpty "2024-01-15" = [] ∧
    get_daily_entries fsLegacy "2024-01-15" = [mkEntry tsSample [itemEgg]] ∧
    get_daily_entries fsCorrupt "2024-01-15" = [] :=
  ⟨(daily_read_legacy_and_corrupt_cases fsEmpty "2024-01-15").1 rfl,
   (daily_read_legacy_and_corrupt_cases fsLegacy "2024-01-15").2.1 _ rfl,
   (daily_read_legacy_and_corrupt_cases fsCorrupt "2024-01-15").2.2 rfl⟩

/-- C8: the JSON extraction function returns the one-item payload on the
bare JSON object, the identical payload on the same JSON inside a
markdown json fence, and absence (not an error) on text holding no JSON. -/
theorem extract_json_examples :
    extractJson plainJsonInput = some eggPayload ∧
    extractJson fencedJsonInput = some eggPayload ∧
    extractJson "no json here" = Option.none :=
  ⟨rfl, rfl, rfl⟩

/-- C9 counterexample: the save is not in temp-then-move form — it opens
the final path for writing directly and performs no rename, refuting the
atomic-write discipline at a concrete entry list and date. -/
theorem save_not_atomic_counterexample :
    ¬ atomicSaveClaim [mkEntry tsSample [itemEgg]] "2024-01-15" := by
  intro h
  exact h.1 (List.Mem.head _)

/-- C9 amended: _save_daily_log rewrites the day's file in place: its
trace opens the final path first (truncating it, so a reader at that
point observes an incomplete file), then writes the full entry list, and
performs no rename of a temporary file. -/
theorem save_overwrites_in_place (st : PathState) (entries : List PyVal)
    (d : String) :
    (saveDailyLogOps entries d).all (fun op => !op.isRenameOp) = true ∧
    (saveDailyLogOps entries d).head? =
      some (.openWrite (dailyLogPath d)) ∧
    applyOps st (List.take 1 (saveDailyLogOps entries d)) (dailyLogPath d) =
      .corrupt ∧
    applyOps st (saveDailyLogOps entries d) (dailyLogPath d) =
      .stored (.list entries) := by
  refine ⟨rfl, rfl, ?_, ?_⟩ <;>
    simp [saveDailyLogOps, applyOps, applyOp, FileOp.isRenameOp]

/-- C2: the code persists the grown backoff delay on the client instance
across calls.  With a transport failing twice then succeeding, the first
call sleeps 1 then 2 and leaves retry_delay at 4; a second call on the
same instance then sleeps 4 then 8 instead of restarting at 1 then 2. -/
theorem retry_delay_persists_across_calls :
    (transcribe_audio true failTwiceTransport 1).result = some "ok" ∧
    (transcribe_audio true failTwiceTransport 1).waits = [1, 2] ∧
    (transcribe_audio true failTwiceTransport 1).finalDelay = 4 ∧
    (transcribe_audio true failTwiceTransport
        (transcribe_audio true failTwiceTransport 1).finalDelay).waits =
      [4, 8] :=
  ⟨rfl, rfl, rfl, rfl⟩

/-- C3: appending an empty items list, a non-list, or a list with a
structurally invalid member fails validation and leaves the persisted
state unchanged (the returned state is the input state itself, so no
disk write happened); and the state changes only for a non-empty list
of valid items, so an entry with zero items is never persisted. -/
theorem store_rejects_invalid_before_disk (fs : FS) (t : Timestamp) :
    (∀ x, x.isPyList = false → store_food_entry fs x t = (false, fs)) ∧
    (store_food_entry fs (.list []) t = (false, fs)) ∧
    (∀ items i, i ∈ items → validItem i = false →
      store_food_entry fs (.list items) t = (false, fs)) ∧
    (∀ x, (store_food_entry fs x t).2 ≠ fs →
      ∃ items, x = .list items ∧ items ≠ [] ∧
        items.all validItem = true) := by
  have hnonlist : ∀ x : PyVal, x.isPyList = false →
      store_food_entry fs x t = (false, fs) := by
    intro x hx
    have : ¬ (pyTruthy x = true) ∨ ¬ (x.isPyList = true) := by
      right; simp [hx]
    cases x <;> simp_all [store_food_entry, PyVal.isPyList]
  refine ⟨hnonlist, by simp [store_food_entry, pyTruthy], ?_, ?_⟩
  · intro items i hi hvi
    have hne : items ≠ [] := by
      intro h; subst h; exact absurd hi (List.not_mem_nil i)
    have htr : pyTruthy (.list items) = true := by
      cases items with
      | nil => exact absurd rfl hne
      | cons a l => simp [pyTruthy]
    have hall : items.all validItem = false := by
      apply Bool.eq_false_iff.mpr
      intro hall
      have := List.all_eq_true.mp hall i hi
      rw [hvi] at this
      exact Bool.false_ne_true this
    simp [store_food_entry, htr, PyVal.isPyList, hall]
  · intro x hchanged
    cases x with
    | list items =>
      cases items with
      | nil =>
        exact absurd (by simp [store_food_entry, pyTruthy]) hchanged
      | cons a l =>
        by_cases hall : (a :: l).all validItem = true
        · exact ⟨a :: l, rfl, by simp, hall⟩
        · have hall2 : (a :: l).all validItem = false :=
            Bool.eq_false_iff.mpr hall
          have htr : pyTruthy (.list (a :: l)) = true := by simp [pyTruthy]
          exact absurd
            (by simp [store_food_entry, htr, PyVal.isPyList, hall2]) hchanged
    | str s => exact absurd (congrArg Prod.snd (hnonlist (.str s) rfl)) hchanged
    | int n => exact absurd (congrArg Prod.snd (hnonlist (.int n) rfl)) hchanged
    | bool b =>
        exact absurd (congrArg Prod.snd (hnonlist (.bool b) rfl)) hchanged
    | none => exact absurd (congrArg Prod.snd (hnonlist .none rfl)) hchanged
    | dict kvs =>
        exact absurd (congrArg Prod.snd (hnonlist (.dict kvs) rfl)) hchanged

/-- Witness for C3: the empty list, an item with wrong field names, and
a bare string each fail and leave the empty directory unchanged. -/
theorem store_rejects_invalid_before_disk_witness :
    store_food_entry fsEmpty (.list []) tsSample = (false, fsEmpty) ∧
    store_food_entry fsEmpty (.list [.dict [("name", .str "x")]]) tsSample =
      (false, fsEmpty) ∧
    store_food_entry fsEmpty (.str "eggs") tsSample = (false, fsEmpty) :=
  ⟨(store_rejects_invalid_before_disk fsEmpty tsSample).2.1,
   (store_rejects_invalid_before_disk fsEmpty tsSample).2.2.1
     [.dict [("name", .str "x")]] (.dict [("name", .str "x")])
     (List.Mem.head _) rfl,
   (store_rejects_invalid_before_disk fsEmpty tsSample).1 (.str "eggs") rfl⟩

/-- C10: the item validation checks key presence only — every non-empty
list of dicts each containing the keys food and quantity is accepted and
persisted as-is, regardless of value types or extra fields. -/
theorem store_checks_key_presence_only (fs : FS) (t : Timestamp)
    (items : List PyVal) (hne : items ≠ [])
    (hkeys : ∀ i ∈ items, ∃ kvs, i = .dict kvs ∧
      (lookupKey kvs "food").isSome = true ∧
      (lookupKey kvs "quantity").isSome = true) :
    (store_food_entry fs (.list items) t).1 = true ∧
    loadDailyLog (store_food_entry fs (.list items) t).2 t.dateStr =
      loadDailyLog fs t.dateStr ++ [mkEntry t items] := by
  have hall : items.all validItem = true := by
    rw [List.all_eq_true]
    intro i hi
    obtain ⟨kvs, rfl, hf, hq⟩ := hkeys i hi
    simp [validItem, hf, hq]
  rw [store_food_entry_success_eq fs t items hne hall]
  exact ⟨rfl, loadDailyLog_save fs t.dateStr _⟩

/-- An item with an empty food name, a numeric quantity and an extra
field: structurally odd values that key-presence validation accepts. -/
def itemOdd : PyVal :=
  .dict [("food", .str ""), ("quantity", .int 150), ("note", .bool true)]

/-- Witness for C10: the odd-valued item is accepted and persisted. -/
theorem store_checks_key_presence_only_witness :
    (store_food_entry fsEmpty (.list [itemOdd]) tsSample).1 = true ∧
    loadDailyLog (store_food_entry fsEmpty (.list [itemOdd]) tsSample).2
      tsSample.dateStr =
      loadDailyLog fsEmpty tsSample.dateStr ++ [mkEntry tsSample [itemOdd]] :=
  store_checks_key_presence_only fsEmpty tsSample [itemOdd]
    (by simp)
    (by
      intro i hi
      rw [List.mem_singleton] at hi
      subst hi
      exact ⟨[("food", .str ""), ("quantity", .int 150), ("note", .bool true)],
        rfl, rfl, rfl⟩)

/-- When no attempt of the transport returns HTTP 200, the transcription
retry loop makes every remaining attempt and yields absence. -/
theorem transcribeLoop_allFail (transport : Nat → TranscriptAttempt)
    (hfail : ∀ n text, transport n ≠ .response 200 text) :
    ∀ (r attempt delay : Nat), r ≠ 0 →
      (transcribeLoop transport attempt r delay).result = Option.none ∧
      (transcribeLoop transport attempt r delay).attempts = r := by
  intro r
  induction r with
  | zero => intro attempt delay h; exact absurd rfl h
  | succ r ih =>
    intro attempt delay _
    cases htr : transport attempt with
    | response status text =>
      have hs : ¬ (status = 200) := by
        intro h; subst h; exact hfail attempt text htr
      by_cases hr : r = 0
      · subst hr; simp [transcribeLoop, htr, hs]
      · have hih := ih (attempt + 1) (delay * 2) hr
        simp [transcribeLoop, htr, hs, hr, hih.1, hih.2]
    | raised =>
      by_cases hr : r = 0
      · subst hr; simp [transcribeLoop, htr]
      · have hih := ih (attempt + 1) (delay * 2) hr
        simp [transcribeLoop, htr, hr, hih.1, hih.2]

/-- When no attempt of the transport returns HTTP 200, the extraction
retry loop makes every remaining attempt and yields absence. -/
theorem parseLoop_allFail (transport : Nat → ExtractAttempt)
    (hfail : ∀ n content, transport n ≠ .response 200 content) :
    ∀ (r attempt delay : Nat), r ≠ 0 →
      (parseLoop transport attempt r delay).result = Option.none ∧
      (parseLoop transport attempt r delay).attempts = r := by
  intro r
  induction r with
  | zero => intro attempt delay h; exact absurd rfl h
  | succ r ih =>
    intro attempt delay _
    cases htr : transport attempt with
    | response status content =>
      have hs : ¬ (status = 200) := by
        intro h; subst h; exact hfail attempt content htr
      by_cases hr : r = 0
      · subst hr; simp [parseLoop, htr, hs]
      · have hih := ih (attempt + 1) (delay * 2) hr
        simp [parseLoop, htr, hs, hr, hih.1, hih.2]
    | raised =>
      by_cases hr : r = 0
      · subst hr; simp [parseLoop, htr]
      · have hih := ih (attempt + 1) (delay * 2) hr
        simp [parseLoop, htr, hr, hih.1, hih.2]

/-- C5: the service clients absorb every per-attempt failure and return
absence rather than propagating an exception (the embedded calls are
total functions into an optional payload: each except clause of the
source maps a raised attempt to a failed one); and a transport that
never succeeds makes the call perform exactly max_retries = 3 attempts
and return absence, for both clients. -/
theorem clients_absorb_failures
    (tT : Nat → TranscriptAttempt) (tE : Nat → ExtractAttempt)
    (dT dE : Nat) (desc : String)
    (hT : ∀ n text, tT n ≠ .response 200 text)
    (hE : ∀ n content, tE n ≠ .response 200 content)
    (hdesc : pyStrip desc ≠ "") :
    (transcribe_audio true tT dT).result = Option.none ∧
    (transcribe_audio true tT dT).attempts = 3 ∧
    (parse_food_description desc tE dE).result = Option.none ∧
    (parse_food_description desc tE dE).attempts = 3 := by
  have h1 := transcribeLoop_allFail tT hT 3 0 dT (by simp)
  have h2 := parseLoop_allFail tE hE 3 0 dE (by simp)
  refine ⟨?_, ?_, ?_, ?_⟩ <;>
    simp [transcribe_audio, parse_food_description, hdesc,
      h1.1, h1.2, h2.1, h2.2]

/-- A transcription transport that raises on every attempt. -/
def alwaysRaiseT : Nat → TranscriptAttempt := fun _ => .raised

/-- An extraction transport that raises on every attempt. -/
def alwaysRaiseE : Nat → ExtractAttempt := fun _ => .raised

/-- Witness for C5: with always-raising transports, both clients make
exactly 3 attempts and return absence. -/
theorem clients_absorb_failures_witness :
    (transcribe_audio true alwaysRaiseT 1).result = Option.none ∧
    (transcribe_audio true alwaysRaiseT 1).attempts = 3 ∧
    (parse_food_description "chicken" alwaysRaiseE 1).result = Option.none ∧
    (parse_food_description "chicken" alwaysRaiseE 1).attempts = 3 :=
  clients_absorb_failures alwaysRaiseT alwaysRaiseE 1 1 "chicken"
    (fun _ _ h => TranscriptAttempt.noConfusion h)
    (fun _ _ h => ExtractAttempt.noConfusion h)
    (by decide)

/-- Storing a sequence of valid same-day batches appends their entries,
in order, to whatever the day's journal already loads to. -/
theorem storeMany_load (d : String) :
    ∀ (batches : List (List PyVal × Timestamp)) (fs : FS),
      (∀ b ∈ batches,
        b.1 ≠ [] ∧ b.1.all validItem = true ∧ b.2.dateStr = d) →
      loadDailyLog (storeMany fs batches) d =
        loadDailyLog fs d ++ batches.map (fun b => mkEntry b.2 b.1) := by
  intro batches
  induction batches with
  | nil => intro fs _; simp [storeMany]
  | cons b bs ih =>
    intro fs hb
    obtain ⟨hne, hval, hdate⟩ := hb b (List.Mem.head _)
    have htail : ∀ x ∈ bs,
        x.1 ≠ [] ∧ x.1.all validItem = true ∧ x.2.dateStr = d :=
      fun x hx => hb x (List.mem_cons_of_mem _ hx)
    obtain ⟨items, t⟩ := b
    simp only at hne hval hdate
    simp only [storeMany]
    rw [ih _ htail, store_food_entry_success_eq fs t items hne hval]
    rw [← hdate, loadDailyLog_save]
    simp

/-- C1: a successful append followed by a same-day read ends with the
new entry (its timestamp in isoformat, its items as given); and N
same-day appends starting from a day with no file read back as exactly
those N entries in append order. -/
theorem append_then_read_roundtrip :
    (∀ (fs : FS) (items : List PyVal) (t : Timestamp),
      items ≠ [] → items.all validItem = true →
      (store_food_entry fs (.list items) t).1 = true ∧
      (get_daily_entries (store_food_entry fs (.list items) t).2
          t.dateStr).getLast? = some (mkEntry t items)) ∧
    (∀ (fs : FS) (d : String) (batches : List (List PyVal × Timestamp)),
      fs d = .absent →
      (∀ b ∈ batches,
        b.1 ≠ [] ∧ b.1.all validItem = true ∧ b.2.dateStr = d) →
      get_daily_entries (storeMany fs batches) d =
        batches.map fun b => mkEntry b.2 b.1) := by
  constructor
  · intro fs items t hne hval
    rw [store_food_entry_success_eq fs t items hne hval]
    refine ⟨rfl, ?_⟩
    rw [get_daily_entries, loadDailyLog_save]
    simp
  · intro fs d batches habsent hb
    rw [get_daily_entries, storeMany_load d batches fs hb]
    have hload : loadDailyLog fs d = [] := by simp [loadDailyLog, habsent]
    simp [hload]

/-- Witness for C1: two appends on an empty day read back as exactly
those two entries, in order, and a single append ends with its entry. -/
theorem append_then_read_roundtrip_witness :
    get_daily_entries
        (storeMany fsEmpty [([itemEgg], tsSample), ([itemOdd], tsSample)])
        "2024-01-15" =
      [mkEntry tsSample [itemEgg], mkEntry tsSample [itemOdd]] ∧
    (get_daily_entries
        (store_food_entry fsEmpty (.list [itemEgg]) tsSample).2
        tsSample.dateStr).getLast? = some (mkEntry tsSample [itemEgg]) := by
  constructor
  · have h := append_then_read_roundtrip.2 fsEmpty "2024-01-15"
      [([itemEgg], tsSample), ([itemOdd], tsSample)] rfl
      (by
        intro b hb
        simp only [List.mem_cons, List.mem_singleton] at hb
        rcases hb with rfl | rfl | h
        · exact ⟨by simp, rfl, rfl⟩
        · exact ⟨by simp, rfl, rfl⟩
        · exact absurd h (List.not_mem_nil b))
    simpa using h
  · exact (append_then_read_roundtrip.1 fsEmpty [itemEgg] tsSample
      (by simp) rfl).2

/-- A payload whose single item has empty-string food and quantity. -/
def emptyStringsPayload : PyVal :=
  .dict [("items", .list [.dict [("food", .str ""), ("quantity", .str "")]])]

/-- C7 counterexample: structural validation accepts an item whose food
and quantity are the empty string, where the claim requires it to return
false. -/
theorem validate_accepts_empty_strings :
    validate_parsed_data emptyStringsPayload = true := rfl

/-- The structure validate_parsed_data actually decides: a dict with an
items key holding a list whose every element is a dict with food and
quantity keys bound to strings — empty strings included. -/
def specStructValid (d : PyVal) : Prop :=
  ∃ kvs, d = .dict kvs ∧
    ∃ items, lookupKey kvs "items" = some (.list items) ∧
      ∀ i ∈ items, ∃ ikvs, i = .dict ikvs ∧
        (∃ f, lookupKey ikvs "food" = some (.str f)) ∧
        (∃ q, lookupKey ikvs "quantity" = some (.str q))

/-- C7 amended: validate_parsed_data returns true exactly when the
payload is a dict with an items key holding a list of dicts whose food
and quantity keys are bound to strings, with no non-emptiness
requirement on those strings. -/
theorem validate_iff_struct (d : PyVal) :
    validate_parsed_data d = true ↔ specStructValid d := by
  constructor
  · intro h
    cases d with
    | dict kvs =>
      refine ⟨kvs, rfl, ?_⟩
      cases hitems : lookupKey kvs "items" with
      | none => simp [validate_parsed_data, hitems] at h
      | some v =>
        cases v with
        | list items =>
          refine ⟨items, rfl, ?_⟩
          intro i hi
          simp only [validate_parsed_data, hitems] at h
          have hp := List.all_eq_true.mp h i hi
          cases i with
          | dict ikvs =>
            cases hf : lookupKey ikvs "food" with
            | none => simp [hf] at hp
            | some f =>
              cases hq : lookupKey ikvs "quantity" with
              | none => simp [hf, hq] at hp
              | some q =>
                cases f with
                | str fs =>
                  cases q with
                  | str qs => exact ⟨ikvs, rfl, ⟨fs, hf⟩, ⟨qs, hq⟩⟩
                  | int n => simp [hf, hq, PyVal.isPyStr] at hp
                  | bool b => simp [hf, hq, PyVal.isPyStr] at hp
                  | none => simp [hf, hq, PyVal.isPyStr] at hp
                  | list xs => simp [hf, hq, PyVal.isPyStr] at hp
                  | dict kvs2 => simp [hf, hq, PyVal.isPyStr] at hp
                | int n => simp [hf, hq, PyVal.isPyStr] at hp
                | bool b => simp [hf, hq, PyVal.isPyStr] at hp
                | none => simp [hf, hq, PyVal.isPyStr] at hp
                | list xs => simp [hf, hq, PyVal.isPyStr] at hp
                | dict kvs2 => simp [hf, hq, PyVal.isPyStr] at hp
          | str s => simp at hp
          | int n => simp at hp
          | bool b => simp at hp
          | none => simp at hp
          | list xs => simp at hp
        | str s => simp [validate_parsed_data, hitems] at h
        | int n => simp [validate_parsed_data, hitems] at h
        | bool b => simp [validate_parsed_data, hitems] at h
        | none => simp [validate_parsed_data, hitems] at h
        | dict kvs2 => simp [validate_parsed_data, hitems] at h
    | str s => simp [validate_parsed_data] at h
    | int n => simp [validate_parsed_data] at h
    | bool b => simp [validate_parsed_data] at h
    | none => simp [validate_parsed_data] at h
    | list xs => simp [validate_parsed_data] at h
  · rintro ⟨kvs, rfl, items, hitems, hforall⟩
    simp only [validate_parsed_data, hitems]
    rw [List.all_eq_true]
    intro i hi
    obtain ⟨ikvs, rfl, ⟨f, hf⟩, ⟨q, hq⟩⟩ := hforall i hi
    simp [hf, hq, PyVal.isPyStr]

/-- A parseable payload with an items key whose single item binds food
and quantity to numbers, so it fails structural validation. -/
def invalidTypedPayload : PyVal :=
  .dict [("items", .list [.dict [("food", .int 1), ("quantity", .int 2)]])]

/-- C6 counterexample: a reply that fails structural validation is not
stopped at the extraction stage — the pipeline run completes and the
item is persisted, because upload_audio never invokes
validate_parsed_data. -/
theorem pipeline_skips_structural_validation :
    validate_parsed_data invalidTypedPayload = false ∧
    (upload_audio (some "ate stuff") (some invalidTypedPayload) fsEmpty
        tsSample).1 =
      .done "ate stuff"
        (.list [.dict [("food", .int 1), ("quantity", .int 2)]]) ∧
    get_daily_entries
        (upload_audio (some "ate stuff") (some invalidTypedPayload) fsEmpty
          tsSample).2 "2024-01-15" =
      [mkEntry tsSample [.dict [("food", .int 1), ("quantity", .int 2)]]] :=
  ⟨rfl, rfl, rfl⟩

/-- C6 amended: the extraction-stage gate of the pipeline is only the
truthiness-plus-items-key test: parser absence, or a parsed dict with no
items key, fails the run as a parse error with nothing persisted;
structural validation is not consulted. -/
theorem extraction_stage_checks (fs : FS) (now : Timestamp)
    (tr : String) (htr : ¬ (tr = "")) :
    upload_audio (some tr) Option.none fs now = (.errParse, fs) ∧
    (∀ kvs, lookupKey kvs "items" = Option.none →
      upload_audio (some tr) (some (.dict kvs)) fs now = (.errParse, fs)) := by
  constructor
  · simp [upload_audio, htr]
  · intro kvs hk
    by_cases hkvs : pyTruthy (.dict kvs) = false
    · simp [upload_audio, htr, uploadAfterParse, hkvs]
    · simp [upload_audio, htr, uploadAfterParse, hkvs, hk]

/-- Witness for C6 amended: parser absence and a payload missing the
items key each fail as a parse error, leaving the directory unchanged. -/
theorem extraction_stage_checks_witness :
    upload_audio (some "ate") Option.none fsEmpty tsSample =
      (.errParse, fsEmpty) ∧
    upload_audio (some "ate") (some (.dict [("foods", .int 1)])) fsEmpty
        tsSample =
      (.errParse, fsEmpty) :=
  ⟨(extraction_stage_checks fsEmpty tsSample "ate" (by decide)).1,
   (extraction_stage_checks fsEmpty tsSample "ate" (by decide)).2
     [("foods", .int 1)] rfl⟩
